import Mathlib

/-!
Shallow embedding of the exif-inspector upload-and-extraction pipeline.

Python strings are modelled as `List Char` (`PyStr`), JSON metadata values as
`PyVal` (string, integer number, or null), a metadata record as an association
list, and the transient upload directory as a list of existing paths.
Each definition is translated from the corresponding function in the source
repository (`src/app/core/utils.py`, `src/app/services/exif_service.py`,
`src/app/api/v1/endpoints.py`, `src/app/core/middleware.py`).
-/

namespace ExifInspector

/-- Python `str` modelled as a list of characters. -/
abbrev PyStr := List Char

/-- A JSON metadata value as produced by the extraction tool: a string, an
(integer) number, or null. -/
inductive PyVal : Type where
  | str (s : PyStr)
  | num (n : Int)
  | null
deriving DecidableEq, Repr

/-- A metadata record: mapping from field name to value (`Dict[str, Any]`). -/
abbrev Metadata := List (PyStr × PyVal)

/-- Python `dict.get(k, d)`: the stored value for the first matching key,
else the default.  Mirrors that a stored `None` is returned, not the default. -/
def pyGetD (m : Metadata) (k : PyStr) (d : PyVal) : PyVal :=
  match m.find? (fun kv => kv.1 = k) with
  | some kv => kv.2
  | none => d

/-- Python `str(value)` for our value domain. -/
def pyStr : PyVal → PyStr
  | .str s => s
  | .num n => (toString n).toList
  | .null => "None".toList

/-- Python truthiness for our value domain (`if value:`). -/
def truthy : PyVal → Bool
  | .str s => s ≠ []
  | .num n => n ≠ 0
  | .null => false

/-- Whether a value is a Python `str`. -/
def PyVal.isStr : PyVal → Bool
  | .str _ => true
  | _ => false

/-- Python `str.lower()` (ASCII case folding, as used on filenames). -/
def pyLower (s : PyStr) : PyStr := s.map Char.toLower

/-- `utils.validate_image_file`: the general allowed-extension set
`('.jpg', '.jpeg', '.png', '.raf', '.tiff', '.tif')`. -/
def allowedImageExts : List PyStr :=
  [".jpg".toList, ".jpeg".toList, ".png".toList, ".raf".toList,
   ".tiff".toList, ".tif".toList]

/-- `utils.validate_fuji_file`: the vendor allowed-extension set
`('.jpg', '.jpeg', '.raf')`. -/
def allowedFujiExts : List PyStr :=
  [".jpg".toList, ".jpeg".toList, ".raf".toList]

/-- Python `s.endswith(tuple)`: true iff `s` ends with some member. -/
def pyEndswithAny (s : PyStr) (exts : List PyStr) : Bool :=
  exts.any (fun e => e.isSuffixOf s)

/-- `utils.validate_image_file(filename)`:
`filename.lower().endswith(allowed_extensions)`. -/
def validate_image_file (filename : PyStr) : Bool :=
  pyEndswithAny (pyLower filename) allowedImageExts

/-- `utils.validate_fuji_file(filename)`:
`filename.lower().endswith(allowed_extensions)`. -/
def validate_fuji_file (filename : PyStr) : Bool :=
  pyEndswithAny (pyLower filename) allowedFujiExts

/-- An HTTP-level error (`HTTPException(status_code, detail)` or an error
JSON response). -/
structure HttpErr : Type where
  code : Nat
  detail : PyStr
deriving DecidableEq, Repr

/-- A Python exception raised inside a handler's `try` block. -/
inductive PyExc : Type where
  | http (e : HttpErr)
  | validation
  | typeError
  | attributeError
deriving DecidableEq, Repr

/-- `endpoints.MAX_FILE_SIZE_MB * 1024 * 1024` with `MAX_FILE_SIZE_MB = 50.0`:
the float product `50.0 * 1024 * 1024` is exactly `52428800`. -/
def maxSizeBytesEndpoint : Nat := 52428800

/-- The 413 detail string
`f"File size exceeds maximum allowed size of {max_size_mb} MB"` with
`max_size_mb = 50.0`. -/
def sizeLimitMsg : PyStr :=
  "File size exceeds maximum allowed size of 50.0 MB".toList

/-- `endpoints.validate_file_size` applied to the measured byte count:
raises 413 when `file_size > max_size_bytes`, else returns. -/
def validate_file_size (fileSize : Nat) : Except HttpErr Unit :=
  if maxSizeBytesEndpoint < fileSize then
    .error ⟨413, sizeLimitMsg⟩
  else
    .ok ()

/-- `middleware.FileUploadSizeMiddleware`: `int(50.0 * 1024 * 1024)`. -/
def middlewareMaxSize : Nat := 52428800

/-- The content-length branch of `FileUploadSizeMiddleware.dispatch`: returns
the 413 response when `content_length > max_size`, else passes the request
through (`none`). -/
def fileUploadSizeCheck (contentLength : Nat) : Option HttpErr :=
  if middlewareMaxSize < contentLength then
    some ⟨413, sizeLimitMsg⟩
  else
    none

/-- What one run of the external tool did: its exit code and what
`json.loads` would make of its stdout. -/
inductive JsonOut : Type where
  | malformed
  | arr (records : List Metadata)
deriving DecidableEq, Repr

/-- One invocation of `exiftool -j <path>`. -/
structure ToolResult : Type where
  exitCode : Nat
  out : JsonOut
deriving DecidableEq, Repr

/-- `ExifService.parse_exif_metadata`: `subprocess.run(..., check=True)`
raises `CalledProcessError` on a non-zero exit (mapped to a 500),
`json.loads` failure is mapped to a 500, and otherwise the result is
`metadata_list[0] if metadata_list else {}`. -/
def parse_exif_metadata (tr : ToolResult) : Except PyExc Metadata :=
  if tr.exitCode ≠ 0 then
    .error (.http ⟨500, "Error processing image".toList⟩)
  else
    match tr.out with
    | .malformed => .error (.http ⟨500, "Error parsing EXIF data".toList⟩)
    | .arr records =>
      match records with
      | [] => .ok []
      | r :: _ => .ok r

/-- Python `s.replace(c, r)` for single-character pattern and replacement. -/
def replaceChar (c r : Char) (s : PyStr) : PyStr :=
  s.map (fun x => if x = c then r else x)

/-- The characters `sanitize_filename` replaces: `'<>:"/\\|?*'`. -/
def invalid_chars : PyStr := "<>:\"/\\|?*".toList

/-- The replacement loop of `utils.sanitize_filename`:
`for char in invalid_chars: filename = filename.replace(char, '_')`. -/
def replacePhase (s : PyStr) : PyStr :=
  invalid_chars.foldl (fun acc c => replaceChar c '_' acc) s

/-- Python `p.rfind(c)` on a list: index of the last occurrence, `-1` if none. -/
def pyRfindAux (l : PyStr) (c : Char) (i : Int) (acc : Int) : Int :=
  match l with
  | [] => acc
  | x :: xs => pyRfindAux xs c (i + 1) (if x = c then i else acc)

/-- Python `p.rfind(c)`. -/
def pyRfind (l : PyStr) (c : Char) : Int := pyRfindAux l c 0 (-1)

/-- `os.path.splitext` (posix): split at the last `'.'` that lies after the
last `'/'` and is preceded, within the basename, by some non-dot character;
otherwise the extension is empty. -/
def pySplitext (p : PyStr) : PyStr × PyStr :=
  let sepIndex := pyRfind p '/'
  let dotIndex := pyRfind p '.'
  if sepIndex < dotIndex then
    let nameSeg := (p.drop (sepIndex + 1).toNat).take (dotIndex - sepIndex - 1).toNat
    if nameSeg.any (fun c => c ≠ '.') then
      (p.take dotIndex.toNat, p.drop dotIndex.toNat)
    else (p, [])
  else (p, [])

/-- Python `l[:k]` (the slice used by `sanitize_filename`): for a negative
stop the slice runs to `len(l) + k`, clamped at zero. -/
def pySliceTo (l : PyStr) (k : Int) : PyStr :=
  if k < 0 then l.take (l.length - k.natAbs) else l.take k.toNat

/-- `utils.sanitize_filename`: replace the invalid characters with `'_'`,
then, if the result is longer than 255, truncate the base to
`base[:255 - len(ext)]` and re-append the extension. -/
def sanitize_filename (s : PyStr) : PyStr :=
  let r := replacePhase s
  if 255 < r.length then
    let be := pySplitext r
    pySliceTo be.1 (255 - (be.2.length : Int)) ++ be.2
  else r

/-- `utils.format_date_for_filename(date_str)` with the ambient
`datetime.now().strftime(...)` value passed in as `now`: falsy or
`"Unknown Date"` values give `now`; a non-empty string is normalised by
`replace(":", "").replace(" ", "_")`; any non-string value makes the
attribute access raise inside the `try`, which also falls back to `now`. -/
def format_date_for_filename (now : PyStr) (v : PyVal) : PyStr :=
  match v with
  | .str s =>
    if s = [] ∨ s = "Unknown Date".toList then now
    else replaceChar ' ' '_' (s.filter (fun c => c ≠ ':'))
  | _ => now

/-- Python `value.replace(" ", "_")` where `value` came from `dict.get`:
raises `AttributeError` when the value is not a string. -/
def pyReplaceSpaces (v : PyVal) : Except PyExc PyStr :=
  match v with
  | .str s => .ok (replaceChar ' ' '_' s)
  | _ => .error .attributeError

/-- The `metadata_used` dictionary returned by the rename endpoint. -/
structure MetadataUsed : Type where
  date : PyVal
  camera : PyStr
  lens : PyStr
  aperture : PyVal
  shutter_speed : PyVal
  iso : PyVal
deriving DecidableEq, Repr

/-- The rename endpoint's response body. -/
structure RenameResult : Type where
  original_filename : PyStr
  proposed_filename : PyStr
  metadata_used : MetadataUsed
deriving DecidableEq, Repr

/-- The filename-synthesis part of `endpoints.rename_proposal` (lines
292-330): component extraction, formatting, joining with `'_'`,
sanitisation, and re-appending the original extension. `now` is the ambient
current-time string used only when the date field is absent or a
placeholder. -/
def rename_core (origName : PyStr) (m : Metadata) (now : PyStr) :
    Except PyExc RenameResult := do
  let be := pySplitext origName
  let date_str := pyGetD m "DateTimeOriginal".toList (.str [])
  let camera ← pyReplaceSpaces (pyGetD m "Model".toList (.str []))
  let lens ← pyReplaceSpaces (pyGetD m "LensModel".toList (.str []))
  let aperture := pyGetD m "Aperture".toList (.str [])
  let aperture_str := if truthy aperture then 'f' :: pyStr aperture else []
  let shutter := pyGetD m "ShutterSpeed".toList (.str [])
  let shutter_str := if truthy shutter then pyStr shutter ++ "s".toList else []
  let iso := pyGetD m "ISO".toList (.str [])
  let iso_str := if truthy iso then "ISO".toList ++ pyStr iso else []
  let date_formatted := format_date_for_filename now date_str
  let elements := [date_formatted, camera, lens, aperture_str, shutter_str, iso_str]
  let joined := List.intercalate ['_'] (elements.filter (fun e => e ≠ []))
  let newName := sanitize_filename joined ++ be.2
  .ok ⟨origName, newName, ⟨date_str, camera, lens, aperture, shutter, iso⟩⟩

/-- `models.RecipeDetails`: twelve `str`-typed fields. -/
structure RecipeDetails : Type where
  FilmSimulation : PyStr
  DynamicRange : PyStr
  GrainEffect : PyStr
  ColorChrome : PyStr
  ColorChromeBlue : PyStr
  WhiteBalance : PyStr
  WBShift : PyStr
  Highlights : PyStr
  Shadows : PyStr
  Color : PyStr
  Sharpness : PyStr
  NoiseReduction : PyStr
deriving DecidableEq, Repr

/-- `models.FujiRecipeResponse`. -/
structure FujiRecipeResponse : Type where
  filename : PyStr
  recipe : PyStr
  recipe_details : RecipeDetails
  date : PyStr
  camera_model : PyStr
  lens_model : PyStr
  aperture : PyStr
  shutter_speed : PyStr
  iso : PyStr
  focal_length : PyStr
deriving DecidableEq, Repr

/-- Pydantic validation of a `str`-typed field: accepts a string, raises
`ValidationError` on a number or null. -/
def reqStr (v : PyVal) : Except PyExc PyStr :=
  match v with
  | .str s => .ok s
  | _ => .error .validation

/-- The helper `to_str` in `parse_fuji_metadata`:
`str(value) if value != "Unknown" else value`. -/
def to_str (v : PyVal) : PyStr :=
  if v = .str ("Unknown".toList) then "Unknown".toList else pyStr v

/-- The sentinel string. -/
def strUnknown : PyStr := "Unknown".toList

/-- The record-to-view part of `ExifService.parse_fuji_metadata` (everything
after `parse_exif_metadata` returns a record `m`): resolves the film
simulation with its fallback chain, builds `RecipeDetails` (whose pydantic
`str` fields reject non-string values), derives the recipe name from the
segment after `'/'`, and assembles `FujiRecipeResponse`. -/
def decode_recipe (m : Metadata) (basename : PyStr) :
    Except PyExc FujiRecipeResponse := do
  let film := pyGetD m "FilmMode".toList
      (pyGetD m "FilmSimulation".toList (.str strUnknown))
  let fsim ← reqStr film
  let dyn ← reqStr (pyGetD m "DynamicRange".toList (.str strUnknown))
  let grain ← reqStr (pyGetD m "GrainEffectRoughness".toList (.str strUnknown))
  let cchrome ← reqStr (pyGetD m "ColorChrome".toList (.str strUnknown))
  let cblue ← reqStr (pyGetD m "ColorChromeBlue".toList (.str strUnknown))
  let wb ← reqStr (pyGetD m "WhiteBalance".toList (.str strUnknown))
  let wbshift ← reqStr (pyGetD m "WhiteBalanceFineTune".toList (.str strUnknown))
  let high ← reqStr (pyGetD m "HighlightTone".toList (.str strUnknown))
  let shad ← reqStr (pyGetD m "ShadowTone".toList (.str strUnknown))
  let color ← reqStr (pyGetD m "Saturation".toList (.str strUnknown))
  let sharp ← reqStr (pyGetD m "Sharpness".toList (.str strUnknown))
  let noise ← reqStr (pyGetD m "NoiseReduction".toList (.str strUnknown))
  let details : RecipeDetails :=
    ⟨fsim, dyn, grain, cchrome, cblue, wb, wbshift, high, shad, color, sharp, noise⟩
  let recipe_name := if '/' ∈ fsim then (fsim.splitOn '/').getD 1 [] else fsim
  let aperture := pyGetD m "Aperture".toList (.str strUnknown)
  let iso := pyGetD m "ISO".toList (.str strUnknown)
  let focal := pyGetD m "FocalLength".toList (.str strUnknown)
  let shutter := pyGetD m "ShutterSpeed".toList (.str strUnknown)
  let date ← reqStr (pyGetD m "DateTimeOriginal".toList (.str ("Unknown Date".toList)))
  let cam ← reqStr (pyGetD m "Model".toList (.str ("Unknown Camera".toList)))
  let lens ← reqStr (pyGetD m "LensModel".toList (.str ("Unknown Lens".toList)))
  .ok ⟨basename, recipe_name, details, date, cam, lens,
       to_str aperture, to_str shutter, to_str iso, to_str focal⟩

/-- Python `os.path.basename`: the part after the last `'/'`. -/
def pyBasename (p : PyStr) : PyStr :=
  (p.reverse.takeWhile (fun c => c ≠ '/')).reverse

/-- The transient directory `settings.TEMP_DIR = Path("temp_uploads")`. -/
def tempDir : PyStr := "temp_uploads".toList

/-- `temp_dir / file.filename` as computed by `save_upload_file`. -/
def tempPath (filename : PyStr) : PyStr := tempDir ++ '/' :: filename

/-- The transient directory's contents, as the list of existing paths. -/
abbrev FsState := List PyStr

/-- Materialising a file at a path (creating or overwriting it). -/
def fsAdd (fs : FsState) (p : PyStr) : FsState :=
  if p ∈ fs then fs else p :: fs

/-- `Path.unlink`: remove the path. -/
def fsRemove (fs : FsState) (p : PyStr) : FsState :=
  fs.filter (fun q => q ≠ p)

/-- `ExifService.save_upload_file`: materialises the upload at
`temp_dir / file.filename` and returns that path. The path is computed from
the uploaded filename alone. -/
def save_upload_file (fs : FsState) (filename : PyStr) : FsState × PyStr :=
  (fsAdd fs (tempPath filename), tempPath filename)

/-- An uploaded file as a request sees it: declared filename, measured byte
count, and what the external tool does on its contents. -/
structure Upload : Type where
  filename : PyStr
  size : Nat
  tool : ToolResult
deriving DecidableEq, Repr

/-- A successful single-file analysis body `{"filename": ..., "metadata": ...}`. -/
structure ExifOk : Type where
  filename : PyStr
  metadata : Metadata
deriving DecidableEq, Repr

/-- The observable outcome of one single-file request: the HTTP-level result,
the final transient-directory state, and how many `unlink` calls were made on
the request's transient path. -/
structure ReqOut (α : Type) : Type where
  result : Except HttpErr α
  fs : FsState
  unlinks : Nat

/-- Maps a caught exception to the string interpolated into the 500 detail. -/
def excDetail : PyExc → PyStr
  | .http e => e.detail
  | .validation => "validation error".toList
  | .typeError => "type error".toList
  | .attributeError => "attribute error".toList

/-- `endpoints.analyze_exif`: extension check, size check, save, extract
inside `try`, and the `finally` block
`if temp_file_path.exists(): temp_file_path.unlink()`. -/
def analyze_exif (fs : FsState) (f : Upload) : ReqOut ExifOk :=
  if validate_image_file f.filename = false then
    ⟨.error ⟨400, "Unsupported file format".toList⟩, fs, 0⟩
  else if maxSizeBytesEndpoint < f.size then
    ⟨.error ⟨413, sizeLimitMsg⟩, fs, 0⟩
  else
    let sv := save_upload_file fs f.filename
    let p := sv.2
    let r := parse_exif_metadata f.tool
    let u := if p ∈ sv.1 then 1 else 0
    let fs2 := if p ∈ sv.1 then fsRemove sv.1 p else sv.1
    match r with
    | .ok m => ⟨.ok ⟨f.filename, m⟩, fs2, u⟩
    | .error e =>
      ⟨.error ⟨500, "Error processing file: ".toList ++ excDetail e⟩, fs2, u⟩

/-- `endpoints.analyze_fuji_recipe`: like `analyze_exif` but with the vendor
extension set and `parse_fuji_metadata` (extraction then recipe decoding). -/
def analyze_fuji_recipe (fs : FsState) (f : Upload) : ReqOut FujiRecipeResponse :=
  if validate_fuji_file f.filename = false then
    ⟨.error ⟨400, "Unsupported file format. Only Fujifilm images (JPG, RAF) are supported.".toList⟩, fs, 0⟩
  else if maxSizeBytesEndpoint < f.size then
    ⟨.error ⟨413, sizeLimitMsg⟩, fs, 0⟩
  else
    let sv := save_upload_file fs f.filename
    let p := sv.2
    let r := parse_exif_metadata f.tool >>= fun m => decode_recipe m (pyBasename p)
    let u := if p ∈ sv.1 then 1 else 0
    let fs2 := if p ∈ sv.1 then fsRemove sv.1 p else sv.1
    match r with
    | .ok resp => ⟨.ok resp, fs2, u⟩
    | .error e =>
      ⟨.error ⟨500, "Error processing Fujifilm image: ".toList ++ excDetail e⟩, fs2, u⟩

/-- `endpoints.rename_proposal`: extension check, size check, save, extract
plus filename synthesis inside `try`, and the same `finally` cleanup. -/
def rename_proposal (fs : FsState) (f : Upload) (now : PyStr) : ReqOut RenameResult :=
  if validate_image_file f.filename = false then
    ⟨.error ⟨400, "Unsupported file format".toList⟩, fs, 0⟩
  else if maxSizeBytesEndpoint < f.size then
    ⟨.error ⟨413, sizeLimitMsg⟩, fs, 0⟩
  else
    let sv := save_upload_file fs f.filename
    let p := sv.2
    let r := parse_exif_metadata f.tool >>= fun m => rename_core f.filename m now
    let u := if p ∈ sv.1 then 1 else 0
    let fs2 := if p ∈ sv.1 then fsRemove sv.1 p else sv.1
    match r with
    | .ok resp => ⟨.ok resp, fs2, u⟩
    | .error e =>
      ⟨.error ⟨500, "Error processing file: ".toList ++ excDetail e⟩, fs2, u⟩

/-- A per-file failure entry `{"filename": ..., "error": ...}`. -/
structure ErrEntry : Type where
  filename : PyStr
  error : PyStr
deriving DecidableEq, Repr

/-- The loop state of `endpoints.analyze_batch`: the `results` and `errors`
accumulators and the transient directory. -/
structure BatchSt : Type where
  results : List ExifOk
  errors : List ErrEntry
  fs : FsState

/-- One iteration of the `for file in files` loop of `analyze_batch`:
extension failure and size failure append an error entry and continue;
otherwise the file is saved, extracted inside `try`, recorded as a success
or an error entry, and the transient file is removed in `finally`. -/
def batchStep (st : BatchSt) (f : Upload) : BatchSt :=
  if validate_image_file f.filename = false then
    { st with errors := st.errors ++ [⟨f.filename, "Unsupported file format".toList⟩] }
  else if maxSizeBytesEndpoint < f.size then
    { st with errors := st.errors ++ [⟨f.filename, sizeLimitMsg⟩] }
  else
    let sv := save_upload_file st.fs f.filename
    let p := sv.2
    let fs2 := if p ∈ sv.1 then fsRemove sv.1 p else sv.1
    match parse_exif_metadata f.tool with
    | .ok m =>
      { results := st.results ++ [⟨f.filename, m⟩], errors := st.errors, fs := fs2 }
    | .error e =>
      { results := st.results,
        errors := st.errors ++ [⟨f.filename, excDetail e⟩], fs := fs2 }

/-- `endpoints.analyze_batch`: rejects an empty file list with 400, else
folds the per-file loop and returns `results` as the response body; the
`errors` accumulator is only logged. The triple records (returned body,
accumulated error entries, final transient directory). -/
def analyze_batch (fs : FsState) (files : List Upload) :
    Except HttpErr (List ExifOk) × List ErrEntry × FsState :=
  if files = [] then
    (.error ⟨400, "No files provided".toList⟩, [], fs)
  else
    let st := files.foldl batchStep ⟨[], [], fs⟩
    (.ok st.results, st.errors, st.fs)

/-- Spec-side notion of a filename's extension: the suffix starting at the
last `'.'`, or empty when the filename has no dot. -/
def extOf (s : PyStr) : PyStr :=
  if '.' ∈ s then '.' :: (s.reverse.takeWhile (fun c => c ≠ '.')).reverse
  else []

/-- Spec-side description of which files contribute a success entry to the
batch body: those passing both validations whose extraction succeeds. -/
def successEntry (f : Upload) : Option ExifOk :=
  if validate_image_file f.filename = false then none
  else if maxSizeBytesEndpoint < f.size then none
  else
    match parse_exif_metadata f.tool with
    | .ok m => some ⟨f.filename, m⟩
    | .error _ => none

/-- A character is clean when `sanitize_filename`'s replacement loop leaves
it unchanged. -/
def cleanChar (x : Char) : Bool := invalid_chars.all (fun c => x ≠ c)

/-- Concrete demo inputs used by witnesses and counterexamples. -/
def demoUpload : Upload := ⟨"a.jpg".toList, 7, ⟨0, .arr []⟩⟩

/-- A record for the demo batch's successful files. -/
def demoRecord : Metadata := [("Model".toList, .str ("X-T4".toList))]

/-- The three-file batch of the spec's batch scenario: file 2 has an
unsupported extension, files 1 and 3 extract successfully. -/
def demoBatch : List Upload :=
  [⟨"one.jpg".toList, 10, ⟨0, .arr [demoRecord]⟩⟩,
   ⟨"two.txt".toList, 10, ⟨0, .arr [demoRecord]⟩⟩,
   ⟨"three.png".toList, 10, ⟨0, .arr [demoRecord]⟩⟩]

/-- The record of the spec's rename scenario. -/
def renameDemoRecord : Metadata :=
  [("Model".toList, .str ("X-T4".toList)),
   ("Aperture".toList, .str ("2.8".toList)),
   ("ISO".toList, .str ("400".toList)),
   ("DateTimeOriginal".toList, .str ("2024:01:02 03:04:05".toList))]

/-- A 302-character name whose extension part is 301 characters long:
`"a." ++ 300 * "x"`. -/
def longExtName : PyStr := 'a' :: '.' :: List.replicate 300 'x'

/-- The all-Unknown recipe view produced for an empty record. -/
def unknownDetails : RecipeDetails :=
  ⟨strUnknown, strUnknown, strUnknown, strUnknown, strUnknown, strUnknown,
   strUnknown, strUnknown, strUnknown, strUnknown, strUnknown, strUnknown⟩

/-! ### Helper lemmas -/

theorem mem_fsAdd_self (fs : FsState) (p : PyStr) : p ∈ fsAdd fs p := by
  by_cases h : p ∈ fs <;> simp [fsAdd, h]

theorem not_mem_fsRemove_self (fs : FsState) (p : PyStr) : p ∉ fsRemove fs p := by
  simp [fsRemove]

theorem pyGetD_isStr (m : Metadata) (k : PyStr) (d : PyVal)
    (h : ∀ kv ∈ m, (kv.2).isStr = true) (hd : d.isStr = true) :
    (pyGetD m k d).isStr = true := by
  unfold pyGetD
  cases hf : m.find? (fun kv => kv.1 = k) with
  | none => exact hd
  | some kv => exact h kv (List.mem_of_find?_eq_some hf)

theorem reqStr_of_isStr (v : PyVal) (h : v.isStr = true) :
    reqStr v = .ok (pyStr v) := by
  cases v <;> simp_all [reqStr, PyVal.isStr, pyStr]

theorem reqStr_str (s : PyStr) : reqStr (.str s) = .ok s := rfl

/-! ### C6: the 50 MiB size limit -/

/-- C6: every measured byte count at most 50 MiB (52428800 bytes) passes the
size validator; every strictly larger count is rejected with a 413 whose
detail states the limit (`"50.0 MB"` occurs in the message); and the
middleware's pre-body content-length limit equals the per-handler limit. -/
theorem size_limit_spec (n : Nat) :
    (n ≤ maxSizeBytesEndpoint → validate_file_size n = .ok ()) ∧
    (maxSizeBytesEndpoint < n →
      validate_file_size n = .error ⟨413, sizeLimitMsg⟩ ∧
      "50.0 MB".toList <:+: sizeLimitMsg) ∧
    (fileUploadSizeCheck n = none ↔ n ≤ middlewareMaxSize) ∧
    maxSizeBytesEndpoint = middlewareMaxSize := by
  refine ⟨?_, ?_, ?_, rfl⟩
  · intro h
    simp [validate_file_size, Nat.not_lt.mpr h]
  · intro h
    refine ⟨by simp [validate_file_size, h], ?_⟩
    exact ⟨"File size exceeds maximum allowed size of ".toList, [], by decide⟩
  · by_cases h : middlewareMaxSize < n
    · simp [fileUploadSizeCheck, h]
    · simp [fileUploadSizeCheck, h]
      omega


/-- C6 witness: the limit value at the boundary. -/
theorem size_limit_spec_witness :
    validate_file_size 52428800 = .ok () ∧
    validate_file_size 52428801 = .error ⟨413, sizeLimitMsg⟩ := by
  exact ⟨(size_limit_spec 52428800).1 (by decide),
         ((size_limit_spec 52428801).2.1 (by decide)).1⟩

/-! ### C2: the transient path is determined solely by the uploaded filename -/

/-- C2 (code bug): `save_upload_file` computes the materialized path as
`temp_dir / file.filename`, a function of the uploaded filename alone, so
any two acquisitions — regardless of the rest of the request or the state
of the transient directory — whose declared filenames are equal receive the
SAME path, contradicting the claimed distinct, non-colliding paths. -/
theorem save_upload_path_collision (fs₁ fs₂ : FsState) (f₁ f₂ : Upload)
    (h : f₁.filename = f₂.filename) :
    (save_upload_file fs₁ f₁.filename).2 = (save_upload_file fs₂ f₂.filename).2 := by
  simp [save_upload_file, h]

/-- C2 witness: two different concurrent uploads both named `a.jpg`, against
different directory states, are materialized at the same path. -/
theorem save_upload_path_collision_witness :
    (save_upload_file [] ("a.jpg".toList)).2 =
      (save_upload_file [tempPath ("b.png".toList)] ("a.jpg".toList)).2 := by
  exact save_upload_path_collision [] [tempPath ("b.png".toList)]
    ⟨"a.jpg".toList, 1, ⟨0, .arr []⟩⟩ ⟨"a.jpg".toList, 2, ⟨1, .malformed⟩⟩ rfl

/-! ### C3: success condition of the extraction invoker -/

/-- C3 counterexample: on exit code zero with an EMPTY array, the code
returns `{}` as a SUCCESS (`metadata_list[0] if metadata_list else {}`),
not an `EmptyResultError`-style failure as the claim states. -/
theorem parse_exif_empty_array_success :
    parse_exif_metadata ⟨0, .arr []⟩ = .ok [] ∧
    (parse_exif_metadata ⟨0, .arr []⟩).isOk = true :=
  ⟨rfl, rfl⟩

/-- C3 amended: extraction succeeds exactly when the tool exits zero and its
stdout decodes as a JSON array; an empty array yields the empty metadata
record as a success (not a failure). -/
theorem parse_exif_ok_iff (tr : ToolResult) :
    ((parse_exif_metadata tr).isOk = true ↔
      tr.exitCode = 0 ∧ tr.out ≠ .malformed) ∧
    parse_exif_metadata ⟨0, .arr []⟩ = .ok [] := by
  refine ⟨?_, rfl⟩
  rcases tr with ⟨ec, out⟩
  by_cases h : ec = 0
  · cases out with
    | malformed => simp [parse_exif_metadata, h, Except.isOk, Except.toBool]
    | arr records =>
      cases records <;> simp [parse_exif_metadata, h, Except.isOk, Except.toBool]
  · cases out <;> simp [parse_exif_metadata, h, Except.isOk, Except.toBool]

/-- C3 witness: a non-empty array under exit code zero is a success. -/
theorem parse_exif_ok_iff_witness :
    (parse_exif_metadata ⟨0, .arr [demoRecord]⟩).isOk = true :=
  (parse_exif_ok_iff ⟨0, .arr [demoRecord]⟩).1.mpr ⟨rfl, by decide⟩

/-! ### C8: the concrete rename proposal -/

/-- C8: on the record `{"Model": "X-T4", "Aperture": "2.8", "ISO": "400",
"DateTimeOriginal": "2024:01:02 03:04:05"}` with original name
`IMG_0001.jpg`, the synthesizer proposes exactly
`20240102_030405_X-T4_f2.8_ISO400.jpg`, for any ambient current time:
absent lens and shutter components are omitted and the present components
are joined with `'_'` in the order date, camera, lens, aperture, shutter,
ISO. -/
theorem rename_demo_proposal (now : PyStr) :
    rename_core ("IMG_0001.jpg".toList) renameDemoRecord now =
      .ok ⟨"IMG_0001.jpg".toList,
           "20240102_030405_X-T4_f2.8_ISO400.jpg".toList,
           ⟨.str ("2024:01:02 03:04:05".toList), "X-T4".toList, [],
            .str ("2.8".toList), .str [], .str ("400".toList)⟩⟩ := rfl

/-- C8 witness: the proposal at a fixed concrete ambient time. -/
theorem rename_demo_proposal_witness :
    rename_core ("IMG_0001.jpg".toList) renameDemoRecord ("19990101_000000".toList) =
      .ok ⟨"IMG_0001.jpg".toList,
           "20240102_030405_X-T4_f2.8_ISO400.jpg".toList,
           ⟨.str ("2024:01:02 03:04:05".toList), "X-T4".toList, [],
            .str ("2.8".toList), .str [], .str ("400".toList)⟩⟩ :=
  rename_demo_proposal ("19990101_000000".toList)

/-! ### C5: totality of the recipe decoder -/

/-- C5 counterexample: the decoder is NOT total over records with number or
null values — a numeric `FilmMode` or a null `DynamicRange` makes the
pydantic `str` field validation raise, so no Recipe View is produced. -/
theorem decode_recipe_nonstring_raises :
    decode_recipe [("FilmMode".toList, PyVal.num 5)] ("x.jpg".toList) =
      .error .validation ∧
    decode_recipe [("DynamicRange".toList, PyVal.null)] ("x.jpg".toList) =
      .error .validation :=
  ⟨rfl, rfl⟩

/-- C5 amended: the decoder returns a Recipe View for every record whose
values are all strings (rather than for arbitrary records with number or
null values), and applied to the empty record it yields the view with all
twelve recognized fields equal to `"Unknown"`. -/
theorem decode_recipe_total_on_strings (m : Metadata) (bn : PyStr)
    (h : ∀ kv ∈ m, (kv.2).isStr = true) :
    (decode_recipe m bn).isOk = true ∧
    decode_recipe [] bn =
      .ok ⟨bn, strUnknown, unknownDetails, "Unknown Date".toList,
           "Unknown Camera".toList, "Unknown Lens".toList,
           strUnknown, strUnknown, strUnknown, strUnknown⟩ := by
  refine ⟨?_, rfl⟩
  have hg : ∀ k d, d.isStr = true →
      reqStr (pyGetD m k d) = .ok (pyStr (pyGetD m k d)) :=
    fun k d hd => reqStr_of_isStr _ (pyGetD_isStr m k d h hd)
  have hstr : (pyGetD m ("FilmMode".toList)
      (pyGetD m ("FilmSimulation".toList) (.str strUnknown))).isStr = true :=
    pyGetD_isStr m _ _ h (pyGetD_isStr m _ _ h rfl)
  unfold decode_recipe
  cases hv : pyGetD m ("FilmMode".toList)
      (pyGetD m ("FilmSimulation".toList) (.str strUnknown)) with
  | str s =>
    simp [reqStr_str, hg, PyVal.isStr, Bind.bind, Except.bind,
          Except.isOk, Except.toBool]
  | num n =>
    rw [hv] at hstr
    simp [PyVal.isStr] at hstr
  | null =>
    rw [hv] at hstr
    simp [PyVal.isStr] at hstr

/-- C5 witness: an all-string record decodes successfully, and the empty
record decodes to the all-Unknown view. -/
theorem decode_recipe_total_on_strings_witness :
    (decode_recipe demoRecord ("x.jpg".toList)).isOk = true ∧
    decode_recipe [] ("x.jpg".toList) =
      .ok ⟨"x.jpg".toList, strUnknown, unknownDetails, "Unknown Date".toList,
           "Unknown Camera".toList, "Unknown Lens".toList,
           strUnknown, strUnknown, strUnknown, strUnknown⟩ :=
  decode_recipe_total_on_strings demoRecord ("x.jpg".toList) (by decide)

/-! ### C4: the three-file batch scenario -/

/-- C4 counterexample: in the spec's three-file batch (file 2 has an
unsupported extension, files 1 and 3 extract successfully), the returned
result set contains ONLY the two success entries — no failure entry for
file 2 appears in it, contradicting the claimed 2-success-plus-1-failure
result set. -/
theorem batch_demo_no_failure_entry :
    (analyze_batch [] demoBatch).1 =
      .ok [⟨"one.jpg".toList, demoRecord⟩, ⟨"three.png".toList, demoRecord⟩] ∧
    ∀ e ∈ [(⟨"one.jpg".toList, demoRecord⟩ : ExifOk),
           ⟨"three.png".toList, demoRecord⟩],
      e.filename ≠ "two.txt".toList :=
  ⟨rfl, by decide⟩

/-- C4 amended: the batch returns the two success entries (files 1 and 3)
in the original input order; the failure entry for file 2 is accumulated in
the logged error list rather than the returned result set; the failure of
file 2 does not prevent processing of file 3 (whose success entry is
present); and the transient files of the batch are all removed. -/
theorem batch_demo_partial_failure :
    (analyze_batch [] demoBatch).1 =
      .ok [⟨"one.jpg".toList, demoRecord⟩, ⟨"three.png".toList, demoRecord⟩] ∧
    (analyze_batch [] demoBatch).2.1 =
      [⟨"two.txt".toList, "Unsupported file format".toList⟩] ∧
    (analyze_batch [] demoBatch).2.2 = [] :=
  ⟨rfl, rfl, rfl⟩

/-! ### C1: transient-file cleanup on every exit path -/

/-- C1: in each single-file handler (analyze, fuji, rename), whenever the
upload is materialized (both validations pass), the transient file is
unlinked exactly once before the request completes — the `finally` block
runs on the success path and on every extraction/decoding failure path
alike — and the transient path is absent from the directory afterwards. -/
theorem single_file_cleanup (fs : FsState) (f : Upload) (now : PyStr) :
    (validate_image_file f.filename = true → f.size ≤ maxSizeBytesEndpoint →
      ((analyze_exif fs f).unlinks = 1 ∧
        tempPath f.filename ∉ (analyze_exif fs f).fs) ∧
      ((rename_proposal fs f now).unlinks = 1 ∧
        tempPath f.filename ∉ (rename_proposal fs f now).fs)) ∧
    (validate_fuji_file f.filename = true → f.size ≤ maxSizeBytesEndpoint →
      (analyze_fuji_recipe fs f).unlinks = 1 ∧
        tempPath f.filename ∉ (analyze_fuji_recipe fs f).fs) := by
  constructor
  · intro hv hs
    have hns : ¬ maxSizeBytesEndpoint < f.size := Nat.not_lt.mpr hs
    constructor
    · cases hr : parse_exif_metadata f.tool <;>
        simp [analyze_exif, hv, hns, save_upload_file, hr,
              mem_fsAdd_self, not_mem_fsRemove_self]
    · cases hr : parse_exif_metadata f.tool >>=
          fun m => rename_core f.filename m now <;>
        simp [rename_proposal, hv, hns, save_upload_file, hr,
              mem_fsAdd_self, not_mem_fsRemove_self]
  · intro hv hs
    have hns : ¬ maxSizeBytesEndpoint < f.size := Nat.not_lt.mpr hs
    cases hr : parse_exif_metadata f.tool >>=
        fun m => decode_recipe m (pyBasename (tempPath f.filename)) <;>
      simp [analyze_fuji_recipe, hv, hns, save_upload_file, hr,
            mem_fsAdd_self, not_mem_fsRemove_self]

/-- C1 witness: a concrete materialized request (here one whose extraction
reports zero records) is cleaned up exactly once by all three handlers. -/
theorem single_file_cleanup_witness :
    (((analyze_exif [] demoUpload).unlinks = 1 ∧
        tempPath demoUpload.filename ∉ (analyze_exif [] demoUpload).fs) ∧
      ((rename_proposal [] demoUpload ("NOW".toList)).unlinks = 1 ∧
        tempPath demoUpload.filename ∉
          (rename_proposal [] demoUpload ("NOW".toList)).fs)) ∧
    ((analyze_fuji_recipe [] demoUpload).unlinks = 1 ∧
      tempPath demoUpload.filename ∉ (analyze_fuji_recipe [] demoUpload).fs) := by
  have h := single_file_cleanup [] demoUpload ("NOW".toList)
  exact ⟨h.1 (by decide) (by decide), h.2 (by decide) (by decide)⟩

/-! ### C10: the batch body is exactly the ordered successes -/

theorem batch_foldl_results (files : List Upload) : ∀ st : BatchSt,
    (files.foldl batchStep st).results = st.results ++ files.filterMap successEntry := by
  induction files with
  | nil => simp
  | cons f rest ih =>
    intro st
    rw [List.foldl_cons, ih]
    by_cases h1 : validate_image_file f.filename = false
    · simp [batchStep, successEntry, h1]
    · by_cases h2 : maxSizeBytesEndpoint < f.size
      · simp [batchStep, successEntry, h1, h2]
      · cases h3 : parse_exif_metadata f.tool <;>
          simp [batchStep, successEntry, h1, h2, h3]

/-- C10: for every non-empty batch, the HTTP response body is exactly the
ordered list of success entries (one `{filename, metadata}` per file whose
validations pass and whose extraction succeeds, in input order); the
accumulated per-file error entries never appear in the returned value. -/
theorem batch_returns_only_successes (fs : FsState) (files : List Upload)
    (h : files ≠ []) :
    (analyze_batch fs files).1 = .ok (files.filterMap successEntry) := by
  simp only [analyze_batch, if_neg h]
  rw [batch_foldl_results]
  simp

/-- C10 witness: the demo batch's body is its list of success entries. -/
theorem batch_returns_only_successes_witness :
    (analyze_batch [] demoBatch).1 = .ok (demoBatch.filterMap successEntry) :=
  batch_returns_only_successes [] demoBatch (by decide)

/-! ### C9: sanitisation idempotence -/

theorem foldl_replace_length (cs : List Char) : ∀ s : PyStr,
    (cs.foldl (fun acc c => replaceChar c '_' acc) s).length = s.length := by
  induction cs with
  | nil => intro s; rfl
  | cons c rest ih =>
    intro s
    rw [List.foldl_cons, ih]
    simp [replaceChar]

theorem mem_foldl_replace_sub (cs : List Char) : ∀ (s : PyStr) (x : Char),
    x ∈ cs.foldl (fun acc c => replaceChar c '_' acc) s → x ∈ s ∨ x = '_' := by
  induction cs with
  | nil => intro s x hx; exact Or.inl hx
  | cons c rest ih =>
    intro s x hx
    rw [List.foldl_cons] at hx
    rcases ih _ x hx with hx | hx
    · rcases List.mem_map.mp hx with ⟨y, hy, hfy⟩
      by_cases hyc : y = c
      · simp [hyc] at hfy
        exact Or.inr hfy.symm
      · simp [hyc] at hfy
        exact Or.inl (hfy ▸ hy)
    · exact Or.inr hx

theorem foldl_replace_not_mem (cs : List Char) : ∀ (s : PyStr) (x : Char),
    '_' ∉ cs → x ∈ cs.foldl (fun acc c => replaceChar c '_' acc) s → x ∉ cs := by
  induction cs with
  | nil => intro s x _ _ h; exact absurd h (List.not_mem_nil x)
  | cons c rest ih =>
    intro s x hu hx
    rw [List.foldl_cons] at hx
    have hrest : x ∉ rest :=
      ih _ x (fun hc => hu (List.mem_cons_of_mem c hc)) hx
    have hxc : x ≠ c := by
      rcases mem_foldl_replace_sub rest _ x hx with hx' | hx'
      · rcases List.mem_map.mp hx' with ⟨y, hy, hfy⟩
        by_cases hyc : y = c
        · simp [hyc] at hfy
          intro hc
          apply hu
          rw [← hc]
          rw [hfy]
          exact List.mem_cons_self x rest
        · simp [hyc] at hfy
          exact hfy ▸ hyc
      · intro hc
        apply hu
        rw [← hx', hc]
        exact List.mem_cons_self c rest
    simp [List.mem_cons, hxc, hrest]

theorem replaceChar_eq_self (c r : Char) (s : PyStr)
    (h : ∀ x ∈ s, x ≠ c) : replaceChar c r s = s := by
  induction s with
  | nil => rfl
  | cons x xs ih =>
    simp only [replaceChar, List.map_cons]
    rw [if_neg (h x (List.mem_cons_self x xs))]
    have := ih (fun y hy => h y (List.mem_cons_of_mem x hy))
    simp only [replaceChar] at this
    rw [this]

theorem foldl_replace_eq_self (cs : List Char) : ∀ s : PyStr,
    (∀ x ∈ s, x ∉ cs) → cs.foldl (fun acc c => replaceChar c '_' acc) s = s := by
  induction cs with
  | nil => intro s _; rfl
  | cons c rest ih =>
    intro s h
    rw [List.foldl_cons,
        replaceChar_eq_self c '_' s
          (fun x hx hc => h x hx (hc ▸ List.mem_cons_self c rest))]
    exact ih s (fun x hx hc => h x hx (List.mem_cons_of_mem c hc))

theorem replacePhase_clean (s : PyStr) :
    ∀ x ∈ replacePhase s, x ∉ invalid_chars :=
  fun x hx => foldl_replace_not_mem invalid_chars s x (by decide) hx

theorem replacePhase_of_clean (s : PyStr)
    (h : ∀ x ∈ s, x ∉ invalid_chars) : replacePhase s = s :=
  foldl_replace_eq_self invalid_chars s h

theorem pySplitext_append (p : PyStr) :
    (pySplitext p).1 ++ (pySplitext p).2 = p := by
  simp only [pySplitext]
  split
  · split
    · simp [List.take_append_drop]
    · simp
  · simp

theorem mem_pySplitext₁ {p : PyStr} {x : Char}
    (h : x ∈ (pySplitext p).1) : x ∈ p := by
  rw [← pySplitext_append p]
  exact List.mem_append_left _ h

theorem mem_pySplitext₂ {p : PyStr} {x : Char}
    (h : x ∈ (pySplitext p).2) : x ∈ p := by
  rw [← pySplitext_append p]
  exact List.mem_append_right _ h

set_option maxRecDepth 4000 in
/-- C9 counterexample: sanitisation is NOT idempotent on every string. For
`"a." ++ 300 * "x"` (length 302, extension part of length 301) the
truncation step's negative slice leaves a 301-character name, and a second
application truncates it again to 255 characters. -/
theorem sanitize_filename_not_idem :
    sanitize_filename (sanitize_filename longExtName) ≠
      sanitize_filename longExtName := by decide

/-- C9 amended: sanitisation is idempotent on every string whose extension
part (after invalid-character replacement) is at most 255 characters long —
in particular on every name of length at most 255, so sanitising an
already-sanitised ordinary name is a no-op; only over-long extensions
(>255 characters) break idempotence. -/
theorem sanitize_filename_idem (s : PyStr)
    (h : (pySplitext (replacePhase s)).2.length ≤ 255) :
    sanitize_filename (sanitize_filename s) = sanitize_filename s := by
  by_cases hlen : 255 < (replacePhase s).length
  · have hba := pySplitext_append (replacePhase s)
    have hbe : (pySplitext (replacePhase s)).1.length +
        (pySplitext (replacePhase s)).2.length = (replacePhase s).length := by
      conv_rhs => rw [← hba]
      rw [List.length_append]
    have hknn : ¬ ((255 : Int) - (pySplitext (replacePhase s)).2.length < 0) := by
      omega
    have htoNat : ((255 : Int) - (pySplitext (replacePhase s)).2.length).toNat =
        255 - (pySplitext (replacePhase s)).2.length := by omega
    have hs1 : sanitize_filename s =
        (pySplitext (replacePhase s)).1.take
            (255 - (pySplitext (replacePhase s)).2.length) ++
          (pySplitext (replacePhase s)).2 := by
      simp only [sanitize_filename, pySliceTo]
      rw [if_pos hlen, if_neg hknn, htoNat]
    have hlen2 : ((pySplitext (replacePhase s)).1.take
        (255 - (pySplitext (replacePhase s)).2.length) ++
          (pySplitext (replacePhase s)).2).length = 255 := by
      rw [List.length_append, List.length_take]
      omega
    have hclean : ∀ x ∈ (pySplitext (replacePhase s)).1.take
        (255 - (pySplitext (replacePhase s)).2.length) ++
          (pySplitext (replacePhase s)).2, x ∉ invalid_chars := by
      intro x hx
      rcases List.mem_append.mp hx with hx | hx
      · exact replacePhase_clean s x (mem_pySplitext₁ (List.take_subset _ _ hx))
      · exact replacePhase_clean s x (mem_pySplitext₂ hx)
    rw [hs1]
    simp only [sanitize_filename]
    rw [replacePhase_of_clean _ hclean, hlen2]
    simp
  · have hs1 : sanitize_filename s = replacePhase s := by
      simp only [sanitize_filename]
      rw [if_neg hlen]
    rw [hs1]
    simp only [sanitize_filename]
    rw [replacePhase_of_clean _ (replacePhase_clean s), if_neg hlen]

/-- C9 witness: an ordinary short name. -/
theorem sanitize_filename_idem_witness :
    sanitize_filename (sanitize_filename ("a b.jpg".toList)) =
      sanitize_filename ("a b.jpg".toList) :=
  sanitize_filename_idem ("a b.jpg".toList) (by decide)

/-! ### C7: the general type validator accepts exactly the allowed extensions -/

theorem takeWhile_middle (p : Char → Bool) (l1 l2 : List Char) (a : Char)
    (h1 : ∀ x ∈ l1, p x = true) (h2 : p a = false) :
    (l1 ++ a :: l2).takeWhile p = l1 := by
  induction l1 with
  | nil => simp [List.takeWhile_cons, h2]
  | cons x xs ih =>
    rw [List.cons_append, List.takeWhile_cons, h1 x (List.mem_cons_self x xs)]
    simp only [if_true]
    rw [ih (fun y hy => h1 y (List.mem_cons_of_mem x hy))]

theorem dropWhile_dot (l : PyStr) (h : '.' ∈ l) :
    ∃ rest, l.dropWhile (fun c => c ≠ '.') = '.' :: rest := by
  induction l with
  | nil => exact absurd h (List.not_mem_nil '.')
  | cons x xs ih =>
    by_cases hx : x = '.'
    · refine ⟨xs, ?_⟩
      rw [hx]
      simp [List.dropWhile_cons]
    · have hxs : '.' ∈ xs := by
        rcases List.mem_cons.mp h with h1 | h1
        · exact absurd h1.symm hx
        · exact h1
      obtain ⟨rest, hrest⟩ := ih hxs
      refine ⟨rest, ?_⟩
      rw [List.dropWhile_cons, if_pos (by simp [hx]), hrest]

theorem extOf_of_suffix (pre cs : PyStr) (h : '.' ∉ cs) :
    extOf (pre ++ '.' :: cs) = '.' :: cs := by
  have hmem : '.' ∈ pre ++ '.' :: cs :=
    List.mem_append_right _ (List.mem_cons_self '.' cs)
  unfold extOf
  rw [if_pos hmem]
  rw [List.reverse_append, List.reverse_cons, List.append_assoc,
      List.singleton_append]
  have htw : List.takeWhile (fun c => c ≠ '.')
      (cs.reverse ++ '.' :: pre.reverse) = cs.reverse := by
    apply takeWhile_middle
    · intro x hx
      have hx' : x ∈ cs := List.mem_reverse.mp hx
      exact decide_eq_true (fun heq => h (heq ▸ hx'))
    · simp
  rw [htw, List.reverse_reverse]

theorem extOf_eq_of_isSuffix (t e : PyStr) (he : e.isSuffixOf t = true)
    (hshape : ∃ cs, e = '.' :: cs ∧ '.' ∉ cs) : extOf t = e := by
  rcases hshape with ⟨cs, rfl, hcs⟩
  rw [List.isSuffixOf_iff_suffix] at he
  obtain ⟨pre, hpre⟩ := he
  rw [← hpre]
  exact extOf_of_suffix pre cs hcs

theorem extOf_suffix (t : PyStr) (h : '.' ∈ t) :
    ∃ pre, t = pre ++ extOf t := by
  obtain ⟨rest, hrest⟩ :=
    dropWhile_dot t.reverse (List.mem_reverse.mpr h)
  have hsplit :=
    List.takeWhile_append_dropWhile (fun c => c ≠ '.') t.reverse
  rw [hrest] at hsplit
  have ht : t = ('.' :: rest).reverse ++
      (t.reverse.takeWhile (fun c => c ≠ '.')).reverse := by
    conv_lhs => rw [← List.reverse_reverse t, ← hsplit]
    rw [List.reverse_append]
  refine ⟨rest.reverse, ?_⟩
  unfold extOf
  rw [if_pos h]
  have hshift : ('.' :: rest).reverse ++
      (t.reverse.takeWhile (fun c => c ≠ '.')).reverse =
      rest.reverse ++
        '.' :: (t.reverse.takeWhile (fun c => c ≠ '.')).reverse := by
    rw [List.reverse_cons, List.append_assoc, List.singleton_append]
  rw [← hshift]
  exact ht

/-- C7: the general type validator returns true on exactly those filename
strings whose extension — the suffix of the lowercased filename starting at
its last dot — is in the general set `{.jpg, .jpeg, .png, .raf, .tiff,
.tif}` (case-insensitively, via lowercasing), and false on every other
string, including those with a missing or empty extension; the model
function is total, so no input makes it throw. -/
theorem validate_image_file_iff (s : PyStr) :
    validate_image_file s = true ↔ extOf (pyLower s) ∈ allowedImageExts := by
  unfold validate_image_file pyEndswithAny
  rw [List.any_eq_true]
  constructor
  · rintro ⟨e, he, hsuf⟩
    have hext : extOf (pyLower s) = e := by
      apply extOf_eq_of_isSuffix _ _ hsuf
      simp only [allowedImageExts, List.mem_cons, List.not_mem_nil,
                 or_false] at he
      rcases he with rfl | rfl | rfl | rfl | rfl | rfl
      · exact ⟨"jpg".toList, by decide, by decide⟩
      · exact ⟨"jpeg".toList, by decide, by decide⟩
      · exact ⟨"png".toList, by decide, by decide⟩
      · exact ⟨"raf".toList, by decide, by decide⟩
      · exact ⟨"tiff".toList, by decide, by decide⟩
      · exact ⟨"tif".toList, by decide, by decide⟩
    rw [hext]
    exact he
  · intro hmem
    by_cases hdot : '.' ∈ pyLower s
    · obtain ⟨pre, hpre⟩ := extOf_suffix (pyLower s) hdot
      refine ⟨extOf (pyLower s), hmem, ?_⟩
      rw [List.isSuffixOf_iff_suffix]
      exact ⟨pre, hpre.symm⟩
    · unfold extOf at hmem
      rw [if_neg hdot] at hmem
      exact absurd hmem (by decide)

/-- C7 witness: an uppercase allowed extension is accepted; the validator is
exercised through the characterisation at a concrete input. -/
theorem validate_image_file_iff_witness :
    validate_image_file ("photo.JPG".toList) = true :=
  (validate_image_file_iff ("photo.JPG".toList)).mpr (by decide)

end ExifInspector
